import Mathlib

/-!
# Verification of the ambience container lifecycle engine

Shallow embedding of the container lifecycle code:

* `TransitRules` — the pair-keyed transition rules of the pair-rule engine
  (`lib/Container.js`, the `States`-based variant).
* A driver executing those rules, modelled from the specification of the
  lifecycle engine (the `States` class itself comes from the external
  `evo-elements` package and is not part of this repository's sources).
* `Container.setState`, `Container.toObject`, `Container._monitorEvent`.
* The registry (`Program`): engine method calls per request, container-map
  eviction on terminal `offline`, `query`.
* The legacy class-based `Container` variant: its `StateMachine` wiring and
  the transition labels its action dispatch can produce.
-/

namespace Ambience

/-- The seven container states of the lifecycle engine. -/
inductive CState where
  | offline
  | loading
  | unloading
  | stopped
  | starting
  | running
  | stopping
deriving DecidableEq, Repr, Fintype

/-- `STABLE_STATES = ['offline', 'stopped', 'running']` (pair-rule `Container.js`). -/
def STABLE_STATES : List String := ["offline", "stopped", "running"]

/-- The stable states as `CState` values. -/
def stableStates : List CState := [.offline, .stopped, .running]

/-- Interior action names used by the transition rules. -/
inductive Action where
  | load
  | unload
  | start
  | stop
deriving DecidableEq, Repr, Fintype

/-- The `_invoke(intermediateState, action, autoTransitState)` arguments of a rule. -/
structure Invoke where
  intermediate : CState
  action : Action
  autoTransit : Option CState
deriving DecidableEq, Repr

/-- One entry of `TransitRules`: the optional `_invoke` call made by the rule body
and the accepts list the rule returns. -/
structure Rule where
  invoke : Option Invoke
  accepts : List CState
deriving DecidableEq, Repr

/-- Embedding of `TransitRules` (pair-rule `Container.js`): for each key
`current:expected` the `_invoke` call the rule performs and the list it returns.
Pairs with no rule map to `none`. -/
def transitRule : CState → CState → Option Rule
  | .offline, .stopped => some ⟨some ⟨.loading, .load, some .stopped⟩, [.loading, .stopped]⟩
  | .offline, .running => some ⟨some ⟨.loading, .load, some .stopped⟩, [.loading, .stopped]⟩
  | .loading, .offline => some ⟨some ⟨.unloading, .unload, some .offline⟩, [.unloading, .stopped, .offline]⟩
  | .loading, .stopped => some ⟨none, [.stopped]⟩
  | .loading, .running => some ⟨none, [.stopped]⟩
  | .stopped, .offline => some ⟨some ⟨.unloading, .unload, some .offline⟩, [.unloading, .offline]⟩
  | .stopped, .running => some ⟨some ⟨.starting, .start, none⟩, [.starting, .running]⟩
  | .starting, .offline => some ⟨some ⟨.stopping, .stop, none⟩, [.running, .stopping, .stopped]⟩
  | .starting, .stopped => some ⟨some ⟨.stopping, .stop, none⟩, [.running, .stopping, .stopped]⟩
  | .starting, .running => some ⟨none, [.running]⟩
  | .running, .stopped => some ⟨some ⟨.stopping, .stop, none⟩, [.stopping, .stopped]⟩
  | .running, .offline => some ⟨some ⟨.stopping, .stop, none⟩, [.stopping, .stopped]⟩
  | .stopping, .offline => some ⟨none, [.stopped]⟩
  | .stopping, .stopped => some ⟨none, [.stopped]⟩
  | .stopping, .running => some ⟨none, [.stopped]⟩
  | .unloading, .offline => some ⟨none, [.offline]⟩
  | .unloading, .stopped => some ⟨none, [.offline]⟩
  | .unloading, .running => some ⟨none, [.offline]⟩
  | _, _ => none

/-- The accepts list the engine obtains for a `(current, expected)` pair:
the list returned by the corresponding `TransitRules` rule. -/
def ruleAccepts (cur tgt : CState) : Option (List CState) :=
  (transitRule cur tgt).map Rule.accepts

/-- An interior, abstracted to its deterministic observable behaviour in the unit
tests: for each optional action, `none` when the method is not implemented, and
`some s` when it is implemented and reports stable state `s` through the monitor. -/
structure Interior where
  load : Option CState
  unload : Option CState
  start : Option CState
  stop : Option CState
deriving DecidableEq, Repr

/-- Look up the interior method for an action name (`this.container.interior[action]`). -/
def Interior.action : Interior → Action → Option CState
  | i, .load => i.load
  | i, .unload => i.unload
  | i, .start => i.start
  | i, .stop => i.stop

/-- Events a container emits: `state(curr, prev)`, `error({expectation, actual,
accepts})` on transition failure, `ready(state)` on settling. -/
inductive Event where
  | state (curr prev : CState)
  | error (expectation actual : CState) (accepts : List CState)
  | ready (s : CState)
deriving DecidableEq, Repr

/-- Modelled from the spec: the transition-execution loop of the `States` driver
(`evo-elements`, not in this repository's sources), §4.2 of the specification.
Given the interior's behaviour, a fuel bound, the current stable state and the
expectation `T`: look up the rule, enter its intermediate state (emitting a
`state` event), invoke the action (or auto-advance when the action is missing);
on the reported stable state `s`: if `s` is outside the accepts list, latch
`state := s` and emit `error` (clearing the expectation); else emit `state`, and
either settle with `ready T` when `s = T` or re-plan from `s`.
Returns the emitted events, the final state, and the remaining expectation
(`none` once cleared). -/
def runTransits (intr : Interior) : Nat → CState → CState → List Event × CState × Option CState
  | 0, st, t => ([], st, some t)
  | fuel + 1, st, t =>
    match transitRule st t with
    | none => ([], st, some t)
    | some r =>
      match r.invoke with
      | none => ([], st, some t)
      | some iv =>
        let entry := Event.state iv.intermediate st
        match (intr.action iv.action).orElse (fun _ => iv.autoTransit) with
        | none => ([entry], iv.intermediate, some t)
        | some s =>
          if s ∈ r.accepts then
            if s = t then
              ([entry, .state s iv.intermediate, .ready t], s, none)
            else
              let rest := runTransits intr fuel s t
              (entry :: .state s iv.intermediate :: rest.1, rest.2)
          else
            ([entry, .state s iv.intermediate, .error t s r.accepts], s, none)

/-- The interior of scenario S1: implements `load` reporting `stopped` and
`start` reporting `running`; `unload` and `stop` left unimplemented. -/
def interiorS1 : Interior := ⟨some .stopped, none, some .running, none⟩

/-! ## `Container.setState` (pair-rule variant) -/

/-- The user-visible engine state relevant to `setState`: the recorded
expectation (`none` when unset). -/
structure EngineIntent where
  expectation : Option String
deriving DecidableEq, Repr

/-- Embedding of `Container.setState(expectedState)`: throws
`Invalid Argument` when `STABLE_STATES.indexOf(expectedState) < 0`, i.e. when
the target is not a member of `STABLE_STATES`; otherwise records the new
expectation (`setExpectation`, which the spec describes as recording the
expectation and beginning execution). -/
def setState (c : EngineIntent) (expectedState : String) : Except String EngineIntent :=
  if expectedState ∈ STABLE_STATES then
    .ok { c with expectation := some expectedState }
  else
    .error ("Invalid Argument: " ++ expectedState)

/-! ## `Container._monitorEvent`, `state` branch (pair-rule variant) -/

/-- A JavaScript value delivered as monitor data: either a string or some
non-string value. -/
inductive MonData where
  | str (s : String)
  | nonString
deriving DecidableEq, Repr

/-- The container fields touched by the `state` branch of `_monitorEvent`:
`_interiorState` and `_transits.current`. -/
structure MonCtx where
  interiorState : String
  current : String
deriving DecidableEq, Repr

/-- A freshly constructed container: `_interiorState = 'offline'` and
`new TransitRules(this, 'offline')`. -/
def initMonCtx : MonCtx := ⟨"offline", "offline"⟩

/-- Embedding of the `state` case of `Container._monitorEvent(event, data)`:
when `data` is a string with `STABLE_STATES.indexOf(data) >= 0`, assign
`_interiorState = data` and `_transits.current = data`; otherwise do nothing.
The boolean records whether `_transits.current` was assigned (the only way this
branch can lead to an emitted event). -/
def monitorStateEvent (c : MonCtx) (data : MonData) : MonCtx × Bool :=
  match data with
  | .str s => if s ∈ STABLE_STATES then (⟨s, s⟩, true) else (c, false)
  | .nonString => (c, false)

/-- Fold of `state` monitor events, forgetting the assignment flag. -/
def monitorStateFold (ds : List MonData) : MonCtx :=
  ds.foldl (fun c d => (monitorStateEvent c d).1) initMonCtx

/-! ## `Container.toObject` and `Program` `container.query` -/

/-- The fields `Container.toObject` reads: `id`, `state` (the driver's current
state name), `interiorState`, `recentStatus` (possibly undefined). -/
structure ContainerView where
  id : String
  state : String
  interiorState : String
  recentStatus : Option String
deriving DecidableEq, Repr

/-- Embedding of `Container.toObject()` as the ordered key/value pairs of the
returned object literal; a `none` value stands for an undefined property. -/
def toObject (c : ContainerView) : List (String × Option String) :=
  [("id", some c.id), ("state", some c.state),
   ("interiorState", some c.interiorState), ("recentStatus", c.recentStatus)]

/-- Embedding of the `neuron:container.query` handler: look the id up in
`_containers` and respond with `container.toObject()`; `none` when the id is
not registered (the handler fails with `nonexist`). -/
def queryContainer (containers : List (String × ContainerView)) (id : String) :
    Option (List (String × Option String)) :=
  (containers.lookup id).map toObject

/-! ## `Program` registry: engine calls per request -/

/-- A method call a registry handler performs on a container engine. -/
inductive EngineCall where
  | callSetState (target : String)
  | callLoad
  | callUnload
  | callStart
  | callStop
deriving DecidableEq, Repr

/-- The registry requests that drive an engine. -/
inductive RegistryOp where
  | create
  | start
  | stop
  | destroy
deriving DecidableEq, Repr, Fintype

/-- Embedding of the `Program` handlers (`index.js`): the engine method each
request invokes — `container.create` ends in `_addContainer`, which wires the
`state`/`status`/`error` forwarders and then calls `.load()`;
`container.start` calls `container.start()`; `container.stop` calls
`container.stop(opts)`; `container.destroy` calls `container.unload()`. -/
def registryEngineCall : RegistryOp → EngineCall
  | .create => .callLoad
  | .start => .callStart
  | .stop => .callStop
  | .destroy => .callUnload

/-- Follows the spec's words (§4.3): every registry operation drives its engine
through `setState` — `create` issues `setState("stopped")`, `start`
`setState("running")`, `stop` `setState("stopped")`, `destroy`
`setState("offline")`. -/
def specRegistryEngineCall : RegistryOp → EngineCall
  | .create => .callSetState "stopped"
  | .start => .callSetState "running"
  | .stop => .callSetState "stopped"
  | .destroy => .callSetState "offline"

/-! ## `Program.onContainerState`: eviction on terminal `offline` -/

/-- A `state` event forwarded to the registry: the emitting container's id, the
new state and the previous state. -/
structure StateEvt where
  id : String
  state : String
  lastState : String
deriving DecidableEq, Repr

/-- Embedding of the eviction step of `Program.onContainerState`: after
broadcasting, `if (state == 'offline' && lastState != 'offline') delete
this._containers[container.id]`. The registry map is modelled by its key
list. -/
def onContainerState (containers : List String) (e : StateEvt) : List String :=
  if e.state = "offline" ∧ e.lastState ≠ "offline" then containers.erase e.id else containers

/-- The condition under which `onContainerState` deletes `id` from the map. -/
def evictsId (id : String) (e : StateEvt) : Prop :=
  e.id = id ∧ e.state = "offline" ∧ e.lastState ≠ "offline"

instance (id : String) (e : StateEvt) : Decidable (evictsId id e) := by
  unfold evictsId
  infer_instance

/-! ## The §4.1 accepts table, as the spec words it -/

/-- Follows the spec's §4.1 table: the `accepts` column for each listed
`from → to` row (`unloading → (any)` covers every distinct target from
`unloading`); `none` for pairs the table does not list. -/
def specAccepts : CState → CState → Option (List CState)
  | .offline, .stopped => some [.loading, .stopped]
  | .offline, .running => some [.loading, .stopped, .running]
  | .stopped, .offline => some [.unloading, .offline]
  | .stopped, .running => some [.starting, .running]
  | .running, .stopped => some [.stopping, .stopped]
  | .running, .offline => some [.stopping, .stopped, .offline]
  | .loading, .offline => some [.loading, .stopped, .unloading, .offline]
  | .starting, .stopped => some [.starting, .running, .stopping, .stopped]
  | .starting, .offline => some [.starting, .running, .stopping, .stopped, .offline]
  | .stopping, .running => some [.stopping, .stopped]
  | .stopping, .offline => some [.stopping, .stopped, .offline]
  | .unloading, .offline => some [.unloading, .offline]
  | .unloading, .stopped => some [.unloading, .offline]
  | .unloading, .running => some [.unloading, .offline]
  | _, _ => none

/-! ## The legacy class-based `Container` variant -/

/-- The user actions the legacy container exposes (`load`, `unload`, `start`,
`stop`; `status` never reaches the state machine). -/
inductive UAction where
  | load
  | unload
  | start
  | stop
deriving DecidableEq, Repr, Fintype

/-- Which optional interior methods are implemented, for the legacy variant's
`doAction` dispatch (`typeof(fn) == 'function'`). -/
structure InteriorImpl where
  load : Bool
  unload : Bool
  start : Bool
  stop : Bool
deriving DecidableEq, Repr

/-- Embedding of the legacy `StateMachine` wiring (`.state(...).when(label).to(next)`
chains): the successor state for a state and transition label, `none` when the
state has no `when` for the label. -/
def legacyTransit : CState → String → Option CState
  | .offline, "state-stopped" => some .stopped
  | .offline, "state-running" => some .running
  | .offline, "state-offline" => some .offline
  | .offline, "action-load" => some .loading
  | .loading, "state-stopped" => some .stopped
  | .loading, "state-running" => some .running
  | .loading, "state-offline" => some .loading
  | .loading, "action-unloading" => some .unloading
  | .loading, "interior-error" => some .offline
  | .unloading, "state-stopped" => some .unloading
  | .unloading, "state-running" => some .running
  | .unloading, "state-offline" => some .offline
  | .unloading, "interior-error" => some .stopped
  | .stopped, "state-stopped" => some .stopped
  | .stopped, "state-running" => some .running
  | .stopped, "state-offline" => some .offline
  | .stopped, "action-start" => some .starting
  | .stopped, "action-unload" => some .unloading
  | .running, "state-stopped" => some .stopped
  | .running, "state-running" => some .running
  | .running, "state-offline" => some .offline
  | .running, "action-stop" => some .stopping
  | .starting, "state-stopped" => some .starting
  | .starting, "state-running" => some .running
  | .starting, "state-offline" => some .offline
  | .starting, "action-stop" => some .stopping
  | .starting, "interior-error" => some .stopped
  | .stopping, "state-stopped" => some .stopped
  | .stopping, "state-running" => some .stopping
  | .stopping, "state-offline" => some .offline
  | .stopping, "action-stop" => some .stopping
  | .stopping, "interior-error" => some .running
  | _, _ => none

/-- Embedding of the legacy per-state action handlers: the transition labels a
`process('action', a)` call can send to `transit` from state `s`, given which
interior methods are implemented. `doAction(n, opts, fallback)` sends
`'action-' + n` when the interior implements `n`, the fallback label when it
does not, and otherwise throws without transiting; empty-bodied handlers and
missing handlers (which throw) send nothing; `StoppingState.dostop` calls the
interior directly without transiting. -/
def legacyActionLabels (s : CState) (a : UAction) (impl : InteriorImpl) : List String :=
  match s, a with
  | .offline, .load => if impl.load then ["action-load"] else ["state-stopped"]
  | .loading, .unload => if impl.unload then ["action-unload"] else ["state-offline"]
  | .stopped, .unload => if impl.unload then ["action-unload"] else ["state-offline"]
  | .stopped, .start => if impl.start then ["action-start"] else []
  | .starting, .stop => if impl.stop then ["action-stop"] else []
  | .running, .stop => if impl.stop then ["action-stop"] else []
  | _, _ => []

/-- The labels the legacy container can feed its machine from interior
reports: `'state-' + data` for a stable `data` (`_monitorEvent`) and
`'interior-error'` (error monitor events). -/
def legacyMonitorLabels : List String :=
  ["state-offline", "state-stopped", "state-running", "interior-error"]

/-! ## Helper lemmas about the registry fold -/

/-- `onContainerState` never adds an id to the map. -/
theorem onContainerState_subset (cs : List String) (e : StateEvt) :
    onContainerState cs e ⊆ cs := by
  unfold onContainerState
  split
  · exact List.erase_subset _ _
  · exact fun _ h => h

/-- `onContainerState` preserves distinctness of map keys. -/
theorem onContainerState_nodup {cs : List String} (h : cs.Nodup) (e : StateEvt) :
    (onContainerState cs e).Nodup := by
  unfold onContainerState
  split
  · exact h.erase _
  · exact h

/-- With distinct keys and `id` present, one `onContainerState` step removes `id`
exactly when the event is an eviction of `id`. -/
theorem mem_onContainerState_iff {cs : List String} {id : String}
    (hnodup : cs.Nodup) (hmem : id ∈ cs) (e : StateEvt) :
    id ∈ onContainerState cs e ↔ ¬ evictsId id e := by
  unfold onContainerState evictsId
  split
  · rename_i hcond
    rw [hnodup.mem_erase_iff]
    constructor
    · rintro ⟨hne, -⟩ ⟨heq, -⟩
      exact hne heq.symm
    · intro hne
      refine ⟨fun h => hne ⟨h.symm, hcond⟩, hmem⟩
  · rename_i hcond
    simp only [hmem, true_iff]
    rintro ⟨-, h2⟩
    exact hcond h2

/-- A missing id never reappears across further registry state events. -/
theorem not_mem_fold_onContainerState {cs : List String} {id : String}
    (h : id ∉ cs) (es : List StateEvt) :
    id ∉ es.foldl onContainerState cs := by
  induction es generalizing cs with
  | nil => exact h
  | cons e es ih =>
    exact ih (fun hm => h (onContainerState_subset cs e hm))

/-- Fold form of the membership characterisation: `id` survives a sequence of
state events exactly when none of them evicts it. -/
theorem mem_fold_onContainerState_iff {id : String} :
    ∀ (es : List StateEvt) (cs : List String), cs.Nodup → id ∈ cs →
      (id ∈ es.foldl onContainerState cs ↔ ∀ e ∈ es, ¬ evictsId id e) := by
  intro es
  induction es with
  | nil =>
    intro cs _ hmem
    simpa using hmem
  | cons e es ih =>
    intro cs hnodup hmem
    simp only [List.foldl_cons, List.mem_cons]
    by_cases hev : evictsId id e
    · have hout : id ∉ onContainerState cs e :=
        fun hm => ((mem_onContainerState_iff hnodup hmem e).mp hm) hev
      have hnever : id ∉ es.foldl onContainerState (onContainerState cs e) :=
        not_mem_fold_onContainerState hout es
      simp only [hnever, false_iff]
      intro hall
      exact hall e (Or.inl rfl) hev
    · have hin : id ∈ onContainerState cs e :=
        (mem_onContainerState_iff hnodup hmem e).mpr hev
      rw [ih (onContainerState cs e) (onContainerState_nodup hnodup e) hin]
      constructor
      · intro hall e' he'
        rcases he' with he' | he'
        · exact he' ▸ hev
        · exact hall e' he'
      · intro hall e' he'
        exact hall e' (Or.inr he')

/-! ## Claim theorems -/

/-- C1: for a fresh engine at `offline` whose interior implements `load`
(reporting `stopped`) and `start` (reporting `running`), executing the
expectation `running` produces exactly the state events
`loading, stopped, starting, running` followed by one `ready(running)`,
whatever the remaining optional interior methods do. -/
theorem happyPath_offline_to_running (u v : Option CState) :
    runTransits ⟨some .stopped, u, some .running, v⟩ 4 .offline .running =
      ([.state .loading .offline, .state .stopped .loading, .state .starting .stopped,
        .state .running .starting, .ready .running], .running, none) := rfl

/-- C2 counterexample: for `offline → running` the accepts list the engine's
rule returns is `[loading, stopped]`, not the spec table's
`[loading, stopped, running]`. -/
theorem accepts_offline_running_mismatch :
    ruleAccepts .offline .running = some [.loading, .stopped] ∧
    specAccepts .offline .running = some [.loading, .stopped, .running] ∧
    ruleAccepts .offline .running ≠ specAccepts .offline .running := by decide

/-- C2 amended: on the single-leg stable pairs (`offline→stopped`,
`stopped→offline`, `stopped→running`, `running→stopped`) the engine's accepts
list equals the §4.1 row, while for the multi-leg pairs it stops at the next
re-planning point: `offline→running ↦ [loading, stopped]` and
`running→offline ↦ [stopping, stopped]`. -/
theorem accepts_matches_table_per_leg :
    ruleAccepts .offline .stopped = specAccepts .offline .stopped ∧
    ruleAccepts .stopped .offline = specAccepts .stopped .offline ∧
    ruleAccepts .stopped .running = specAccepts .stopped .running ∧
    ruleAccepts .running .stopped = specAccepts .running .stopped ∧
    ruleAccepts .offline .running = some [.loading, .stopped] ∧
    ruleAccepts .running .offline = some [.stopping, .stopped] := by decide

/-- C3: from `stopped`, when the interior's `start` reports `stopped` instead of
`running`, executing the expectation `running` emits `state(starting)`,
`state(stopped)` and then `error(expectation running, actual stopped, accepts
[starting, running])`, clears the expectation and ends at `stopped`; and the
engine is usable again: re-running `running` from `stopped` with a correctly
progressing `start` settles at `running` with a `ready(running)`. -/
theorem startFails_reportsError (u v w : Option CState) :
    runTransits ⟨u, v, some .stopped, w⟩ 2 .stopped .running =
      ([.state .starting .stopped, .state .stopped .starting,
        .error .running .stopped [.starting, .running]], .stopped, none) ∧
    runTransits ⟨u, v, some .running, w⟩ 2 .stopped .running =
      ([.state .starting .stopped, .state .running .starting, .ready .running],
       .running, none) :=
  ⟨rfl, rfl⟩

/-- C4 counterexample: the registry's `container.start` handler invokes the
engine's `start()` method, not `setState("running")`. -/
theorem registry_start_not_setState :
    registryEngineCall .start ≠ specRegistryEngineCall .start := by decide

/-- C4 amended: the registry handlers drive their engine through the legacy
action methods — `create` ends in `.load()` after wiring, `start(id)` calls
`.start()`, `stop(id)` calls `.stop(opts)`, `destroy(id)` calls `.unload()` —
and no registry operation calls `setState` at all. -/
theorem registry_drives_action_methods :
    (registryEngineCall .create = .callLoad ∧
     registryEngineCall .start = .callStart ∧
     registryEngineCall .stop = .callStop ∧
     registryEngineCall .destroy = .callUnload) ∧
    ∀ (op : RegistryOp) (t : String), registryEngineCall op ≠ .callSetState t := by
  refine ⟨⟨rfl, rfl, rfl, rfl⟩, ?_⟩
  intro op t
  cases op <;> simp [registryEngineCall]

/-- C5: `setState(target)` fails with an `Invalid Argument` error exactly when
`target` is not one of the three stable states, and for a stable target it
records the new expectation and does not fail. -/
theorem setState_invalidArgument_iff (c : EngineIntent) (t : String) :
    ((∃ msg, setState c t = .error msg) ↔
      ¬ (t = "offline" ∨ t = "stopped" ∨ t = "running")) ∧
    ((t = "offline" ∨ t = "stopped" ∨ t = "running") →
      setState c t = .ok ⟨some t⟩) := by
  unfold setState STABLE_STATES
  by_cases h : t = "offline" ∨ t = "stopped" ∨ t = "running"
  · simp [List.mem_cons, h]
  · simp [List.mem_cons, h]

/-- C5 witness: a stable target is recorded, a transient one is refused. -/
theorem setState_invalidArgument_iff_witness :
    setState ⟨none⟩ "running" = .ok ⟨some "running"⟩ ∧
    ∃ msg, setState ⟨none⟩ "starting" = .error msg :=
  ⟨(setState_invalidArgument_iff ⟨none⟩ "running").2 (Or.inr (Or.inr rfl)),
   (setState_invalidArgument_iff ⟨none⟩ "starting").1.mpr (by simp)⟩

/-- C6: with distinct registry keys and `id` registered, `id` stays in the map
across any sequence of container state events exactly until one of them is a
`state("offline", prev ≠ "offline")` event for `id`; and a single event removes
`id` exactly when it is such an event. -/
theorem registry_member_until_terminal_offline (cs : List String) (id : String)
    (hnodup : cs.Nodup) (hmem : id ∈ cs) (es : List StateEvt) :
    (id ∈ es.foldl onContainerState cs ↔ ∀ e ∈ es, ¬ evictsId id e) ∧
    (∀ e : StateEvt, (id ∉ onContainerState cs e ↔ evictsId id e)) := by
  refine ⟨mem_fold_onContainerState_iff es cs hnodup hmem, fun e => ?_⟩
  constructor
  · intro hnot
    by_contra hev
    exact hnot ((mem_onContainerState_iff hnodup hmem e).mpr hev)
  · intro hev hm
    exact (mem_onContainerState_iff hnodup hmem e).mp hm hev

/-- C6 witness: from `["a", "b", "c"]`, a terminal `offline` event for `b`
evicts exactly `b`. -/
theorem registry_member_until_terminal_offline_witness :
    (["a", "b", "c"] : List String).Nodup ∧
    (("b" ∈ ([⟨"b", "offline", "unloading"⟩] : List StateEvt).foldl
        onContainerState ["a", "b", "c"] ↔
      ∀ e ∈ ([⟨"b", "offline", "unloading"⟩] : List StateEvt), ¬ evictsId "b" e) ∧
     (∀ e : StateEvt, ("b" ∉ onContainerState ["a", "b", "c"] e ↔ evictsId "b" e))) :=
  ⟨by decide,
   registry_member_until_terminal_offline ["a", "b", "c"] "b" (by decide) (by decide)
     [⟨"b", "offline", "unloading"⟩]⟩

/-- C7: from `stopped`, with `unload` unimplemented, executing the expectation
`offline` emits `state(unloading)` and then, by auto-advance with no interior
call, `state(offline)` followed by `ready(offline)`. -/
theorem noUnload_autoAdvances_offline (l s₁ s₂ : Option CState) :
    runTransits ⟨l, none, s₁, s₂⟩ 1 .stopped .offline =
      ([.state .unloading .stopped, .state .offline .unloading, .ready .offline],
       .offline, none) := rfl

/-- C8 counterexample: the snapshot `query` returns does not carry the field
set `{id, state, interiorState, status}` — its fourth key is `recentStatus`. -/
theorem query_fields_counterexample :
    (queryContainer [("c1", ⟨"c1", "offline", "offline", none⟩)] "c1").map
        (List.map Prod.fst) ≠
      some ["id", "state", "interiorState", "status"] := by decide

/-- C8 amended: `query(id)` on a registered id returns the engine's
`toObject()` snapshot: exactly the fields
`{id, state, interiorState, recentStatus}` with the engine's current values. -/
theorem query_returns_snapshot (containers : List (String × ContainerView))
    (id : String) (c : ContainerView) (h : containers.lookup id = some c) :
    queryContainer containers id =
      some [("id", some c.id), ("state", some c.state),
            ("interiorState", some c.interiorState), ("recentStatus", c.recentStatus)] := by
  simp [queryContainer, h, toObject]

/-- C8 witness: a concrete registered container is queried. -/
theorem query_returns_snapshot_witness :
    queryContainer [("c1", ⟨"c1", "running", "running", some "ok"⟩)] "c1" =
      some [("id", some "c1"), ("state", some "running"),
            ("interiorState", some "running"), ("recentStatus", some "ok")] :=
  query_returns_snapshot _ "c1" ⟨"c1", "running", "running", some "ok"⟩ (by decide)

/-- C9: a monitor `state` event whose data is not a stable-state string leaves
`_interiorState` and the driver state untouched and assigns nothing (so no event
is emitted); consequently, from construction on, `_interiorState` is always one
of the three stable states. -/
theorem monitor_ignores_nonStable (c : MonCtx) (d : MonData)
    (h : ∀ s, d = .str s → s ∉ STABLE_STATES) :
    monitorStateEvent c d = (c, false) ∧
    ∀ ds : List MonData, (monitorStateFold ds).interiorState ∈ STABLE_STATES := by
  constructor
  · cases d with
    | str s =>
      have hs := h s rfl
      simp [monitorStateEvent, hs]
    | nonString => rfl
  · intro ds
    have aux : ∀ (l : List MonData) (c₀ : MonCtx), c₀.interiorState ∈ STABLE_STATES →
        (l.foldl (fun c d => (monitorStateEvent c d).1) c₀).interiorState ∈ STABLE_STATES := by
      intro l
      induction l with
      | nil => exact fun c₀ h₀ => h₀
      | cons d' l ih =>
        intro c₀ h₀
        refine ih _ ?_
        cases d' with
        | str s =>
          by_cases hs : s ∈ STABLE_STATES
          · simp [monitorStateEvent, hs]
          · simpa [monitorStateEvent, hs] using h₀
        | nonString => exact h₀
    exact aux ds initMonCtx (by decide)

/-- C9 witness: the transient name `starting` and a non-string datum are both
ignored. -/
theorem monitor_ignores_nonStable_witness :
    monitorStateEvent ⟨"stopped", "stopped"⟩ (.str "starting") = (⟨"stopped", "stopped"⟩, false) ∧
    monitorStateEvent ⟨"stopped", "stopped"⟩ .nonString = (⟨"stopped", "stopped"⟩, false) :=
  ⟨(monitor_ignores_nonStable ⟨"stopped", "stopped"⟩ (.str "starting")
      (by intro s hs; cases hs; decide)).1,
   (monitor_ignores_nonStable ⟨"stopped", "stopped"⟩ .nonString
      (by intro s hs; cases hs)).1⟩

/-- C10: in the legacy class-based variant, no state's action dispatch ever
sends `action-unloading` (the labels it can send are only the four
`action-load/unload/start/stop` and the fallback `state-stopped`/
`state-offline`), and no label producible by user actions or interior reports
moves the machine from `loading` to `unloading` — that edge is unreachable. -/
theorem legacy_actionUnloading_unreachable (s : CState) (a : UAction) (impl : InteriorImpl) :
    "action-unloading" ∉ legacyActionLabels s a impl ∧
    (∀ l ∈ legacyActionLabels s a impl,
      l ∈ ["action-load", "action-unload", "action-start", "action-stop",
           "state-stopped", "state-offline"]) ∧
    (∀ l ∈ legacyActionLabels s a impl ++ legacyMonitorLabels,
      legacyTransit .loading l ≠ some .unloading) := by
  obtain ⟨bl, bu, bs, bst⟩ := impl
  revert s a
  cases bl <;> cases bu <;> cases bs <;> cases bst <;> decide

end Ambience
